import Mathlib

/-!
Verification of the `thruster` OpenAPI-to-Rust code generator's extraction and
resolution pipeline (`src/process.rs`): route parsing/rendering, JSON-schema
type resolution into `NativeType`, entrypoint construction and validation, and
template-argument projection.

External collaborators (the Rust standard library's string splitting, the
`Inflector` case-conversion crate, and the `openapi3` spec-parsing crate) are
modelled at their interface boundary; everything else is a direct shallow
embedding of `src/process.rs`.
-/

namespace Thruster

/-! ## String preliminaries (models of external collaborators) -/

/-- Model of Rust's `str::split("/")` on the character-list level: splits at
every `'/'`, keeping empty pieces (so `""` yields `[""]` and `"/a"` yields
`["", "a"]`), exactly as Rust's `split` does. -/
def splitCharList : List Char → List (List Char)
  | [] => [[]]
  | c :: rest =>
    if c = '/' then [] :: splitCharList rest
    else match splitCharList rest with
      | [] => [[c]]
      | l :: ls => (c :: l) :: ls

/-- Model of Rust's `route.split("/")`. -/
def splitSlash (s : String) : List String := (splitCharList s.data).map String.mk

/-- Model of Rust's `[str].join(sep)` (used by `Route::render`). -/
def joinSep (sep : String) : List String → String
  | [] => ""
  | [x] => x
  | x :: rest => x ++ sep ++ joinSep sep rest

/-- Helper for the `Inflector` model: characters that act as word separators. -/
def isSepChar (c : Char) : Bool := c = ' ' || c = '-' || c = '_'

/-- Modelled from the spec: the external `Inflector` crate's `to_snake_case`
("case-normalized for code generation"): word separators become `_`, an
uppercase letter starts a new `_`-separated word, and all letters are
lowercased (`"myOperationId" ↦ "my_operation_id"`). -/
def to_snake_case (s : String) : String :=
  String.mk (go s.data true)
where
  go : List Char → Bool → List Char
    | [], _ => []
    | c :: rest, isFirst =>
      if isSepChar c then '_' :: go rest false
      else if c.isUpper then
        (if isFirst then [c.toLower] else ['_', c.toLower]) ++ go rest false
      else c :: go rest false

/-- Helper for the `Inflector` model: uppercase the first character of a word. -/
def capitalizeWord : List Char → List Char
  | [] => []
  | c :: rest => c.toUpper :: rest

/-- Modelled from the spec: the external `Inflector` crate's `to_class_case`
(used for `<OperationIdInClassCase>`): snake-case the input, then capitalize
each `_`-separated word and concatenate (`"my_operation_id" ↦ "MyOperationId"`). -/
def to_class_case (s : String) : String :=
  String.mk ((((to_snake_case s).data.splitOn '_').map capitalizeWord).flatten)

/-- Byte-order comparison on strings (UTF-8 byte order agrees with code-point
order), modelling the order used by Rust's `Vec::sort` on strings in
`validate_route_args`. -/
def charListLe : List Char → List Char → Bool
  | [], _ => true
  | _ :: _, [] => false
  | a :: as, b :: bs => if a = b then charListLe as bs else decide (a < b)

/-- String comparison lifted from `charListLe`. -/
def strLe (a b : String) : Bool := charListLe a.data b.data

/-- Model of Rust's `Vec::sort` on strings: sorting by `strLe`. -/
def sortStrings (l : List String) : List String :=
  l.insertionSort (fun a b => strLe a b = true)

/-- Model of Rust's `str::starts_with`. -/
def strStartsWith (s p : String) : Bool := p.data.isPrefixOf s.data

/-- Model of Rust's `str::rfind('/')` followed by `split_at(loc+1).1`: the
suffix of `s` after the last `'/'`, or `none` when `s` has no `'/'`. -/
def afterLastSlash (s : String) : Option String :=
  if s.data.contains '/' then
    some (String.mk (s.data.reverse.takeWhile (fun c => c ≠ '/')).reverse)
  else none

/-! ## Error model

`src/process.rs` reports failures through `error-chain` strings built by
`bail!`; each distinct `bail!` site (plus the two `.ok_or(...)` sites and the
external `resolve_ref_opt` failure) becomes one constructor carrying the
formatted data. -/

/-- One constructor per failure site of `src/process.rs`. -/
inductive Err where
  /-- Site `bail!("Reference {} is not valid path", ref_)` -/
  | invalidReference (ref_ : String)
  /-- Site `bail!("Null is not valid as per spec")` -/
  | nullType
  /-- Site `bail!("Schema type is array of len {}", other)` -/
  | ambiguousType (n : Nat)
  /-- Site `bail!("Items missing for array schema")` -/
  | missingArrayItems
  /-- Site `bail!("Invalid segment: {}", s)` in `Route::from_str` -/
  | malformedRouteSegment (s : String)
  /-- Site `bail!("Path args mismatch - expected {:?}, found {:?}", ...)` -/
  | pathArgMismatch (expected found : List String)
  /-- Site `.ok_or(ErrorKind::from("No operation_id found"))` -/
  | noOperationId
  /-- Site `.ok_or("Content map empty")` -/
  | emptyContentMap
  /-- Site `.ok_or("Media schema not found")` -/
  | mediaSchemaNotFound
  /-- failure of the external `openapi3` crate's `resolve_ref_opt` -/
  | refNotFound (name : String)
deriving DecidableEq

/-! ## Schema model (interface of the external `openapi3`/`schemafy` crates)

Only the fields `src/process.rs` reads are modelled: `ref_`, `type_`, `items`. -/

/-- The `SimpleTypes` enumeration of the external schema crate. -/
inductive SimpleTypes where
  | object | boolean | integer | null | number | string | array
deriving DecidableEq

/-- The schema node as consumed by `NativeType::from_json_schema`: an optional
`$ref` string, a list of declared primitive types, and a list of `items`
schemas. -/
inductive Schema : Type where
  | mk (ref_ : Option String) (type_ : List SimpleTypes) (items : List Schema)

/-- The `ref_` field of a schema node. -/
def Schema.ref : Schema → Option String
  | .mk r _ _ => r

/-- The `type_` field of a schema node. -/
def Schema.types : Schema → List SimpleTypes
  | .mk _ t _ => t

/-- The `items` field of a schema node. -/
def Schema.items : Schema → List Schema
  | .mk _ _ i => i

/-! ## NativeType and resolution (`NativeType::from_json_schema`) -/

/-- Embeds `enum NativeType` from `src/process.rs`. -/
inductive NativeType where
  | i32
  | i64
  | f32
  | f64
  | bool
  | string
  | named (s : String)
  | array (natives : List NativeType)
  | option (native : NativeType)
  | anonymous (schema : Schema)

/-- The trailing `if !required { Ok(Option(out)) } else { Ok(out) }` of
`NativeType::from_json_schema`. -/
def wrapRequired (required : Bool) (core : Except Err NativeType) :
    Except Err NativeType :=
  match core with
  | .error e => .error e
  | .ok out => if !required then .ok (.option out) else .ok out

mutual
/-- Embeds `NativeType::from_json_schema(schema, required)` from `src/process.rs`:
references resolve to `named` of the final path segment; otherwise dispatch on
the primitive-type list (empty ⇒ `anonymous`, one entry ⇒ the matching
variant, arrays recursing into `items` with the same `required`, more than one
entry ⇒ error); finally a not-required result is wrapped in `option`. -/
def NativeType.from_json_schema : Schema → Bool → Except Err NativeType
  | .mk (some ref_) _ _, required =>
    wrapRequired required
      (match afterLastSlash ref_ with
        | none => .error (.invalidReference ref_)
        | some refname => .ok (.named refname))
  | .mk none ts its, required =>
    wrapRequired required
      (match ts with
        | [] => .ok (.anonymous (.mk none ts its))
        | [t] =>
          match t with
          | .object => .ok (.anonymous (.mk none ts its))
          | .boolean => .ok .bool
          | .integer => .ok .i64
          | .null => .error .nullType
          | .number => .ok .f64
          | .string => .ok .string
          | .array =>
            if its.length = 0 then .error .missingArrayItems
            else
              match NativeType.from_json_schema_list its required with
              | .error e => .error e
              | .ok natives => .ok (.array natives)
        | other => .error (.ambiguousType other.length))

/-- The `collect::<Result<Vec<_>>>` over `schema.items`: resolve each item
schema in order, stopping at the first failure. -/
def NativeType.from_json_schema_list (schemas : List Schema) (required : Bool) :
    Except Err (List NativeType) :=
  match schemas with
  | [] => .ok []
  | s :: rest =>
    match NativeType.from_json_schema s required with
    | .error e => .error e
    | .ok t =>
      match NativeType.from_json_schema_list rest required with
      | .error e => .error e
      | .ok ts => .ok (t :: ts)
end

/-- Embeds `OperationId` from `src/process.rs`: a snake-cased operation identifier. -/
structure OperationId where
  val : String
deriving DecidableEq

/-- Embeds `OperationId::new`: snake-cases the raw identifier. -/
def OperationId.new (s : String) : OperationId := ⟨to_snake_case s⟩

/-- Embeds `OperationId::classcase`. -/
def OperationId.classcase (o : OperationId) : String := to_class_case o.val

/-- Embeds `NativeType::render(anon_count, operation_id)` from `src/process.rs`,
returning the rendered text and the threaded counter. The source's
`natives.first().unwrap()` panics on an empty `Array`; a panic is modelled as
`none`. -/
def NativeType.render : NativeType → Nat → OperationId → Option (String × Nat)
  | .i32, n, _ => some ("i32", n)
  | .i64, n, _ => some ("i64", n)
  | .f32, n, _ => some ("f32", n)
  | .f64, n, _ => some ("f64", n)
  | .bool, n, _ => some ("bool", n)
  | .string, n, _ => some ("String", n)
  | .named s, n, _ => some (s, n)
  | .array [], _, _ => none
  | .array (t :: _), n, oid =>
    match NativeType.render t n oid with
    | none => none
    | some (s, n2) => some ("Vec<" ++ s ++ ">", n2)
  | .option t, n, oid =>
    match NativeType.render t n oid with
    | none => none
    | some (s, n2) => some ("Option<" ++ s ++ ">", n2)
  | .anonymous _, n, oid =>
    some (oid.classcase ++ "AnonArg" ++ toString n, n + 1)

/-! ## Interface of the external `openapi3` crate

Only the fields `src/process.rs` reads are modelled; ordered maps of the crate
become association lists in iteration order. -/

/-- Embeds `Location` of a parameter (`parameter.in_`). -/
inductive Location where
  | path | query | header | cookie
deriving DecidableEq

/-- A `Parameter` object of the external crate, at the fields used:
`name`, `required`, `schema`, `in_`. -/
structure Parameter where
  name : String
  required : Option Bool
  schema : Schema
  in_ : Location

/-- A possibly by-reference value (`MaybeRef<T>` of the external crate). -/
inductive MaybeRef (α : Type) where
  | concrete (val : α)
  | ref (r : String)

/-- A `Media` object: an optional schema for one content type. -/
structure Media where
  schema : Option Schema

/-- A response object: an optional content map (content type ↦ media),
in iteration order. -/
structure ResponseObj where
  content : Option (List (String × Media))

/-- The `Components` registry: named parameter and response definitions. -/
structure Components where
  parameters : Option (List (String × Parameter))
  responses : Option (List (String × ResponseObj))

/-- An `Operation` object at the fields used by `Entrypoint::build`. -/
structure Operation where
  parameters : Option (List (MaybeRef Parameter))
  responses : List (String × MaybeRef ResponseObj)
  operation_id : Option String
  summary : Option String
  description : Option String

/-- Modelled from the spec: the external `openapi3` crate's
`resolve_ref_opt`, resolving "any by-reference parameter indirection through
`componentRegistry`": a concrete value resolves to itself, a reference is
looked up by its final path segment in the (optional) registry. -/
def resolve_ref_opt {α : Type} (m : MaybeRef α)
    (registry : Option (List (String × α))) : Except Err α :=
  match m with
  | .concrete v => .ok v
  | .ref r =>
    match afterLastSlash r with
    | none => .error (.refNotFound r)
    | some name =>
      match registry with
      | none => .error (.refNotFound r)
      | some entries =>
        match entries.lookup name with
        | none => .error (.refNotFound r)
        | some v => .ok v

/-- Model of Rust's `Iterator::collect::<Result<Vec<_>, _>>`: apply `f` to
each element in order, stopping at the first failure. -/
def collectResults {α β : Type} (f : α → Except Err β) : List α → Except Err (List β)
  | [] => .ok []
  | x :: rest =>
    match f x with
    | .error e => .error e
    | .ok y =>
      match collectResults f rest with
      | .error e => .error e
      | .ok ys => .ok (y :: ys)

/-! ## Arg construction (`Arg`, `build_args`) -/

/-- Embeds `Method` from `src/process.rs`. -/
inductive Method where
  | get | post | put | patch | delete
deriving DecidableEq

/-- Embeds `struct Arg` from `src/process.rs`. -/
structure Arg where
  name : String
  type_ : NativeType
  location : Location

/-- Embeds `Arg::new`: snake-cases the argument name. -/
def Arg.new (name : String) (type_ : NativeType) (location : Location) : Arg :=
  ⟨to_snake_case name, type_, location⟩

/-- Embeds `Arg::build_from_parameter`: absent `required` defaults to `false`. -/
def Arg.build_from_parameter (parameter : Parameter) : Except Err Arg :=
  match NativeType.from_json_schema parameter.schema
      (parameter.required.getD false) with
  | .error e => .error e
  | .ok native_type => .ok (Arg.new parameter.name native_type parameter.in_)

/-- Resolution of a single (possibly by-reference) parameter into an `Arg`,
as done inside `build_args`'s closure. -/
def buildOneArg (components : Components) (maybe : MaybeRef Parameter) :
    Except Err Arg :=
  match resolve_ref_opt maybe components.parameters with
  | .error e => .error e
  | .ok p => Arg.build_from_parameter p

/-- Embeds `build_args` from `src/process.rs`: absent parameter list yields `[]`;
otherwise resolve each parameter in order, stopping at the first failure
(Rust's `collect::<Result<Vec<_>>>`). -/
def build_args (operation : Operation) (components : Components) :
    Except Err (List Arg) :=
  match operation.parameters with
  | none => .ok []
  | some ps => collectResults (buildOneArg components) ps

/-! ## Response construction (`Response`, `build_responses`) -/

/-- Embeds `struct Response` from `src/process.rs`. -/
structure Response where
  status_code : String
  return_type : Option NativeType
  content_type : Option String

/-- Embeds `Response::new` (the `derive(new)` constructor). -/
def Response.new (status_code : String) (return_type : Option NativeType)
    (content_type : Option String) : Response :=
  ⟨status_code, return_type, content_type⟩

/-- Embeds `Response::build_from_response_obj` from `src/process.rs`: no content ⇒ a
bodyless response; otherwise take the first entry of the content map (empty ⇒
error), require its media schema, and resolve it with `required = true`. -/
def Response.build_from_response_obj (status_code : String)
    (response_obj : ResponseObj) : Except Err Response :=
  match response_obj.content with
  | none => .ok (Response.new status_code none none)
  | some content_map =>
    match content_map.head? with
    | none => .error .emptyContentMap
    | some (content_type, media) =>
      match media.schema with
      | none => .error .mediaSchemaNotFound
      | some s =>
        match NativeType.from_json_schema s true with
        | .error e => .error e
        | .ok typ =>
          .ok (Response.new status_code (some typ) (some content_type))

/-- Embeds `build_responses` from `src/process.rs`: one `Result` per declared
response, resolving any reference first. -/
def build_responses (operation : Operation) (components : Components) :
    List (Except Err Response) :=
  operation.responses.map fun (code, maybe) =>
    match resolve_ref_opt maybe components.responses with
    | .error e => .error e
    | .ok response_obj => Response.build_from_response_obj code response_obj

/-! ## Route model (`RouteSegment`, `Route`) -/

/-- Embeds `enum RouteSegment` from `src/process.rs`. -/
inductive RouteSegment where
  | path (s : String)
  | routeArg (s : String)
deriving DecidableEq

/-- Embeds `struct Route` from `src/process.rs`. -/
structure Route where
  segments : List RouteSegment
deriving DecidableEq

/-- The `is_valid` closure of `Route::from_str`: no brace characters. -/
def is_valid (seg : String) : Bool :=
  !(seg.data.contains '{' || seg.data.contains '}')

/-- The capture of the regex `^\{(.+)\}$` on one segment: the text strictly
between a leading `{` and a trailing `}`, provided it is non-empty and (since
`.` does not match a newline) newline-free. -/
def routeArgCapture (segment : String) : Option String :=
  match segment.data with
  | '{' :: rest =>
    match rest.getLast? with
    | some '}' =>
      let inner := rest.dropLast
      if inner.isEmpty || inner.contains '\n' then none
      else some (String.mk inner)
    | _ => none
  | _ => none

/-- Classification of one segment inside `Route::from_str`: a full `{name}`
placeholder becomes `routeArg` (if the captured name is brace-free), anything
else is a literal `path` segment (if brace-free); otherwise the segment is
malformed. -/
def parseSegment (segment : String) : Except Err RouteSegment :=
  match routeArgCapture segment with
  | some s =>
    if is_valid s then .ok (.routeArg s)
    else .error (.malformedRouteSegment s)
  | none =>
    if is_valid segment then .ok (.path segment)
    else .error (.malformedRouteSegment segment)

/-- Embeds `Route::from_str` from `src/process.rs`: split on `/`, classify each
segment, stop at the first malformed one. -/
def Route.from_str (route : String) : Except Err Route :=
  match collectResults parseSegment (splitSlash route) with
  | .error e => .error e
  | .ok segments => .ok ⟨segments⟩

/-- The closure inside `Route::render`: a literal verbatim, a parameter as
`<snake_cased_name>` (Rocket's placeholder syntax). -/
def renderSegment : RouteSegment → String
  | .path p => p
  | .routeArg a => "<" ++ to_snake_case a ++ ">"

/-- Embeds `Route::render` from `src/process.rs`: literals verbatim, parameters as
`<snake_cased_name>`, joined by `/`. -/
def Route.render (r : Route) : String :=
  joinSep "/" (r.segments.map renderSegment)

/-- Embeds `Route::route_args` from `src/process.rs`: the snake-cased parameter
names, in order. -/
def Route.route_args (r : Route) : List String :=
  r.segments.filterMap fun
    | .routeArg a => some (to_snake_case a)
    | _ => none

/-! ## Entrypoint construction and projection -/

/-- The names of the path-located arguments, in declaration order (the
`filter_map` inside `validate_route_args`). -/
def pathArgNames (args : List Arg) : List String :=
  args.filterMap fun arg =>
    if arg.location = .path then some arg.name else none

/-- Embeds `validate_route_args` from `src/process.rs`: sort the route's parameter
names and the path-located argument names, and fail unless the two sorted
lists coincide. -/
def validate_route_args (route : Route) (args : List Arg) : Except Err Unit :=
  let route_args := sortStrings route.route_args
  let path_args := sortStrings (pathArgNames args)
  if route_args = path_args then .ok ()
  else .error (.pathArgMismatch route_args path_args)

/-- Embeds `struct Entrypoint` from `src/process.rs`. -/
structure Entrypoint where
  route : Route
  method : Method
  args : List Arg
  responses : List Response
  operation_id : OperationId
  summary : Option String
  description : Option String

/-- Embeds `Entrypoint::new` from `src/process.rs`: validate route/path-argument
consistency, then assemble the record. -/
def Entrypoint.new (route : Route) (method : Method) (args : List Arg)
    (responses : List Response) (operation_id : OperationId)
    (summary : Option String) (description : Option String) :
    Except Err Entrypoint :=
  match validate_route_args route args with
  | .error e => .error e
  | .ok _ => .ok ⟨route, method, args, responses, operation_id, summary,
      description⟩

/-- Embeds `Entrypoint::build` from `src/process.rs`. Alongside the entrypoint it
returns the list of response-resolution errors that the source merely prints
(`eprintln!`) while dropping the offending response. -/
def Entrypoint.build (route : String) (method : Method)
    (operation : Operation) (components : Components) :
    Except Err (Entrypoint × List Err) :=
  match build_args operation components with
  | .error e => .error e
  | .ok args =>
    let res := build_responses operation components
    let responses := res.filterMap fun
      | .ok resp => some resp
      | .error _ => none
    let reported := res.filterMap fun
      | .ok _ => none
      | .error e => some e
    match operation.operation_id with
    | none => .error .noOperationId
    | some operation_id =>
      match Route.from_str route with
      | .error e => .error e
      | .ok r =>
        match Entrypoint.new r method args responses
            (OperationId.new operation_id) operation.summary
            operation.description with
        | .error e => .error e
        | .ok ep => .ok (ep, reported)

/-- Embeds `Entrypoint::docstring` from `src/process.rs`. -/
def Entrypoint.docstring (e : Entrypoint) : Option String :=
  match e.summary, e.description with
  | some s, some d => some ("/// " ++ s ++ "\n/// " ++ d ++ "\n")
  | some s, none => some ("/// " ++ s ++ "\n")
  | none, some d => some ("/// " ++ d ++ "\n")
  | none, none => none

/-- Embeds `Entrypoint::result_type` from `src/process.rs`: render the return type of
the first response whose status code starts with `"2"`, or `"()"` when it has
no body; when no such response exists, return `"()"` and (second component
`true`) the source's `eprintln!` warning. `none` models the panic that
rendering an empty `Array` would raise. -/
def Entrypoint.result_type (e : Entrypoint) (anon_count : Nat) :
    Option (String × Bool) :=
  match (e.responses.filter fun resp =>
      strStartsWith resp.status_code "2").head? with
  | some resp =>
    match resp.return_type with
    | some type_ =>
      match type_.render anon_count e.operation_id with
      | none => none
      | some (s, _) => some (s, false)
    | none => some ("()", false)
  | none => some ("()", true)

/-- The flat key/value structure produced by `Entrypoint::build_template_args`
(the `json!` object, with the rendered argument list as name/type pairs). -/
structure TemplateArgs where
  method : Method
  route : String
  function : OperationId
  args : List (String × String)
  result_type : String
  documentation : Option String
deriving DecidableEq

/-- The fold inside `Entrypoint::build_template_args`: render each argument's
type left to right, threading the anonymous-type counter (started at 1 by the
caller); `none` models a rendering panic. -/
def renderArgsFold (operation_id : OperationId) (args : List Arg)
    (acc : List (String × String)) (anon_count : Nat) :
    Option (List (String × String) × Nat) :=
  match args with
  | [] => some (acc, anon_count)
  | arg :: rest =>
    match arg.type_.render anon_count operation_id with
    | none => none
    | some (s, n2) =>
      renderArgsFold operation_id rest (acc ++ [(arg.name, s)]) n2

/-- Embeds `Entrypoint::build_template_args` from `src/process.rs`: fold the rendered
arguments with the counter starting at 1, then build the template record; the
boolean reports `result_type`'s missing-2xx warning. -/
def Entrypoint.build_template_args (e : Entrypoint) :
    Option (TemplateArgs × Bool) :=
  match renderArgsFold e.operation_id e.args [] 1 with
  | none => none
  | some (args_json, anon_count) =>
    match e.result_type anon_count with
    | none => none
    | some (rt, warned) =>
      some (⟨e.method, e.route.render, e.operation_id, args_json, rt,
        e.docstring⟩, warned)

/-! ## Auxiliary predicates used by the verification -/

mutual
/-- Every `array` subterm of a `NativeType` has at least one element (the
safety invariant that keeps `NativeType::render`'s `first().unwrap()` from
panicking). -/
def goodArrays : NativeType → Bool
  | .array natives => !natives.isEmpty && goodArraysList natives
  | .option native => goodArrays native
  | .i32 | .i64 | .f32 | .f64 | .bool | .string => true
  | .named _ => true
  | .anonymous _ => true

/-- Conjunction of `goodArrays` over every element of a list. -/
def goodArraysList : List NativeType → Bool
  | [] => true
  | t :: ts => goodArrays t && goodArraysList ts
end

/-- A segment that the regex `^\{(.+)\}$` accepts with a brace-free capture:
exactly the segments `Route::from_str` turns into parameter segments. -/
def wellFormedPlaceholder (seg : String) : Bool :=
  match routeArgCapture seg with
  | some inner => is_valid inner
  | none => false

/-- The segment-level image of parse-then-render: a well-formed placeholder
reappears as one `<snake_cased_name>` parameter segment, anything else
verbatim. -/
def expectedSegment (seg : String) : String :=
  match routeArgCapture seg with
  | some inner => "<" ++ to_snake_case inner ++ ">"
  | none => seg

/-! ## Concrete inputs used by witnesses -/

/-- A schema `{"type": "integer"}`. -/
def intSchema : Schema := .mk none [.integer] []

/-- An operation with one well-formed response and one response whose content
map is empty (so resolving it fails with `emptyContentMap`). -/
def opC2 : Operation :=
  { parameters := none
    responses := [("200", .concrete ⟨some [("application/json",
        ⟨some intSchema⟩)]⟩), ("500", .concrete ⟨some []⟩)]
    operation_id := some "opId"
    summary := none
    description := none }

/-- An empty component registry. -/
def emptyComponents : Components := ⟨none, none⟩

/-- An inline object schema (no reference, no declared type). -/
def anonSchema : Schema := .mk none [] []

/-- An entrypoint with operation id `myOperationId` and two anonymous
(inline-object) arguments. -/
def epC4 : Entrypoint :=
  ⟨⟨[.path ""]⟩, .post,
   [Arg.new "argOne" (.anonymous anonSchema) .query,
    Arg.new "argTwo" (.anonymous anonSchema) .query],
   [], OperationId.new "myOperationId", none, none⟩

/-- The entrypoint `Entrypoint::build` produces for `opC2` on route `"/x"`. -/
def epC2 : Entrypoint :=
  ⟨⟨[.path "", .path "x"]⟩, .get, [],
   [Response.new "200" (some .i64) (some "application/json")],
   OperationId.new "opId", none, none⟩

/-! ## General lemmas -/

theorem head?_filter {α : Type} (p : α → Bool) :
    ∀ l : List α, (l.filter p).head? = l.find? p := by
  intro l
  induction l with
  | nil => rfl
  | cons x xs ih =>
    by_cases h : p x
    · simp [List.filter_cons, List.find?_cons, h]
    · simp only [List.filter_cons, List.find?_cons]
      rw [if_neg (by simpa using h)]
      cases hpx : p x with
      | true => exact absurd hpx (by simpa using h)
      | false => exact ih

theorem collectResults_ok_iff {α β : Type} {f : α → Except Err β} :
    ∀ {l : List α} {ys : List β},
      collectResults f l = .ok ys ↔
        List.Forall₂ (fun x y => f x = .ok y) l ys := by
  intro l
  induction l with
  | nil =>
    intro ys
    constructor
    · intro h
      cases h
      exact List.Forall₂.nil
    · intro h
      cases h
      rfl
  | cons x xs ih =>
    intro ys
    constructor
    · intro h
      cases hx : f x with
      | error e => simp [collectResults, hx] at h
      | ok y =>
        cases hxs : collectResults f xs with
        | error e => simp [collectResults, hx, hxs] at h
        | ok ys' =>
          simp only [collectResults, hx, hxs] at h
          cases h
          exact List.Forall₂.cons hx (ih.mp hxs)
    · intro h
      cases h with
      | cons hx hxs =>
        simp only [collectResults, hx, ih.mpr hxs]

theorem collectResults_error_mem {α β : Type} {f : α → Except Err β} :
    ∀ {l : List α} {e : Err}, collectResults f l = .error e →
      ∃ x ∈ l, f x = .error e := by
  intro l
  induction l with
  | nil => intro e h; simp [collectResults] at h
  | cons x xs ih =>
    intro e h
    cases hx : f x with
    | error e' =>
      simp only [collectResults, hx] at h
      cases h
      exact ⟨x, List.mem_cons_self x xs, hx⟩
    | ok y =>
      cases hxs : collectResults f xs with
      | error e' =>
        simp only [collectResults, hx, hxs] at h
        cases h
        obtain ⟨z, hz, hfz⟩ := ih hxs
        exact ⟨z, List.mem_cons_of_mem x hz, hfz⟩
      | ok ys => simp [collectResults, hx, hxs] at h

theorem collectResults_first_error {α β : Type} {f : α → Except Err β} :
    ∀ (pre : List α) (x : α) (post : List α) (e : Err),
      (∀ q ∈ pre, (f q).isOk = true) → f x = .error e →
      collectResults f (pre ++ x :: post) = .error e := by
  intro pre
  induction pre with
  | nil =>
    intro x post e _ hx
    simp [collectResults, hx]
  | cons q qs ih =>
    intro x post e hpre hx
    cases hq : f q with
    | error e' =>
      have := hpre q (List.mem_cons_self q qs)
      rw [hq] at this
      simp [Except.isOk, Except.toBool] at this
    | ok y =>
      rw [List.cons_append]
      simp only [collectResults, hq,
        ih x post e (fun r hr => hpre r (List.mem_cons_of_mem q hr)) hx]

theorem charListLe_total : ∀ a b : List Char,
    charListLe a b = true ∨ charListLe b a = true := by
  intro a
  induction a with
  | nil => intro b; left; rfl
  | cons x xs ih =>
    intro b
    cases b with
    | nil => right; rfl
    | cons y ys =>
      by_cases hxy : x = y
      · subst hxy
        rcases ih ys with h | h
        · left; simpa [charListLe] using h
        · right; simpa [charListLe] using h
      · rcases lt_trichotomy x y with h | h | h
        · left
          simp only [charListLe, if_neg hxy]
          exact decide_eq_true h
        · exact absurd h hxy
        · right
          have hyx : ¬y = x := fun hh => hxy hh.symm
          simp only [charListLe, if_neg hyx]
          exact decide_eq_true h

theorem charListLe_trans : ∀ a b c : List Char, charListLe a b = true →
    charListLe b c = true → charListLe a c = true := by
  intro a
  induction a with
  | nil => intro b c _ _; rfl
  | cons x xs ih =>
    intro b c hab hbc
    cases b with
    | nil => simp [charListLe] at hab
    | cons y ys =>
      cases c with
      | nil => simp [charListLe] at hbc
      | cons z zs =>
        by_cases hxy : x = y <;> by_cases hyz : y = z
        · subst hxy; subst hyz
          simp only [charListLe, if_pos rfl] at hab hbc ⊢
          exact ih ys zs hab hbc
        · subst hxy
          simp only [charListLe, if_pos rfl] at hab
          simp only [charListLe, if_neg hyz] at hbc ⊢
          exact hbc
        · subst hyz
          simp only [charListLe, if_neg hxy] at hab ⊢
          exact hab
        · simp only [charListLe, if_neg hxy] at hab
          simp only [charListLe, if_neg hyz] at hbc
          have hxz : x < z := lt_trans (of_decide_eq_true hab)
            (of_decide_eq_true hbc)
          simp only [charListLe, if_neg (ne_of_lt hxz)]
          exact decide_eq_true hxz

theorem charListLe_antisymm : ∀ a b : List Char, charListLe a b = true →
    charListLe b a = true → a = b := by
  intro a
  induction a with
  | nil =>
    intro b _ hba
    cases b with
    | nil => rfl
    | cons y ys => simp [charListLe] at hba
  | cons x xs ih =>
    intro b hab hba
    cases b with
    | nil => simp [charListLe] at hab
    | cons y ys =>
      by_cases hxy : x = y
      · subst hxy
        simp only [charListLe, if_pos rfl] at hab hba
        rw [ih ys hab hba]
      · have hyx : ¬y = x := fun hh => hxy hh.symm
        simp only [charListLe, if_neg hxy] at hab
        simp only [charListLe, if_neg hyx] at hba
        exact absurd (lt_trans (of_decide_eq_true hab)
          (of_decide_eq_true hba)) (lt_irrefl x)

instance : IsTotal String (fun a b => strLe a b = true) :=
  ⟨fun a b => charListLe_total a.data b.data⟩

instance : IsTrans String (fun a b => strLe a b = true) :=
  ⟨fun a b c => charListLe_trans a.data b.data c.data⟩

instance : IsAntisymm String (fun a b => strLe a b = true) :=
  ⟨fun a b hab hba => by
    cases a; cases b
    exact congrArg String.mk (charListLe_antisymm _ _ hab hba)⟩

theorem sortStrings_perm (l : List String) : (sortStrings l).Perm l :=
  List.perm_insertionSort _ l

theorem sortStrings_eq_iff_perm {l₁ l₂ : List String} :
    sortStrings l₁ = sortStrings l₂ ↔ l₁.Perm l₂ := by
  constructor
  · intro h
    exact ((sortStrings_perm l₁).symm.trans (h ▸ sortStrings_perm l₂ :
      (sortStrings l₁).Perm l₂))
  · intro h
    exact List.eq_of_perm_of_sorted
      ((sortStrings_perm l₁).trans (h.trans (sortStrings_perm l₂).symm))
      (List.sorted_insertionSort _ l₁) (List.sorted_insertionSort _ l₂)

theorem wrapRequired_false_ok {core : Except Err NativeType} {t : NativeType}
    (h : wrapRequired false core = .ok t) : ∃ u, t = .option u := by
  cases core with
  | error e => simp [wrapRequired] at h
  | ok out =>
    simp only [wrapRequired, Bool.not_false, if_pos] at h
    cases h
    exact ⟨out, rfl⟩

theorem takeWhile_append_all {p : Char → Bool} :
    ∀ {l₁ l₂ : List Char}, (∀ x ∈ l₁, p x = true) →
      (l₁ ++ l₂).takeWhile p = l₁ ++ l₂.takeWhile p := by
  intro l₁
  induction l₁ with
  | nil => intro l₂ _; rfl
  | cons x xs ih =>
    intro l₂ h
    rw [List.cons_append, List.takeWhile_cons,
      if_pos (h x (List.mem_cons_self x xs)), List.cons_append,
      ih fun z hz => h z (List.mem_cons_of_mem x hz)]

theorem afterLastSlash_append (pre name : String) (h : '/' ∉ name.data) :
    afterLastSlash (pre ++ "/" ++ name) = some name := by
  have hdata : (pre ++ "/" ++ name).data = pre.data ++ '/' :: name.data := by
    simp [String.data_append]
  unfold afterLastSlash
  rw [hdata, if_pos (by simp)]
  have hrev : (pre.data ++ '/' :: name.data).reverse =
      name.data.reverse ++ '/' :: pre.data.reverse := by
    simp
  rw [hrev, takeWhile_append_all (p := fun c => c ≠ '/')
    (fun x hx => by
      simp only [decide_eq_true_eq, ne_eq]
      intro heq
      exact h (heq ▸ List.mem_reverse.mp hx)),
    List.takeWhile_cons]
  simp

theorem afterLastSlash_of_no_slash {s : String} (h : '/' ∉ s.data) :
    afterLastSlash s = none := by
  unfold afterLastSlash
  rw [if_neg (by simpa using h)]

theorem forall₂_mem_left {α β : Type} {R : α → β → Prop} :
    ∀ {l : List α} {ys : List β}, List.Forall₂ R l ys → ∀ {x}, x ∈ l →
      ∃ y, R x y := by
  intro l ys h
  induction h with
  | nil => intro x hx; cases hx
  | cons hR _ ih =>
    intro x hx
    cases hx with
    | head => exact ⟨_, hR⟩
    | tail _ hmem => exact ih hmem

theorem parseSegment_ok_valid {seg : String} {rs : RouteSegment}
    (h : parseSegment seg = .ok rs) :
    is_valid seg = true ∨ wellFormedPlaceholder seg = true := by
  cases hc : routeArgCapture seg with
  | some inner =>
    simp only [parseSegment, hc] at h
    by_cases hv : is_valid inner
    · right; simp [wellFormedPlaceholder, hc, hv]
    · rw [if_neg hv] at h; cases h
  | none =>
    simp only [parseSegment, hc] at h
    by_cases hv : is_valid seg
    · left; exact hv
    · rw [if_neg hv] at h; cases h

theorem parseSegment_error_of_bad {seg : String}
    (hval : is_valid seg = false) (hwf : wellFormedPlaceholder seg = false) :
    ∃ e, parseSegment seg = .error e := by
  cases hc : routeArgCapture seg with
  | some inner =>
    have hv : ¬is_valid inner = true := by
      simp only [wellFormedPlaceholder, hc] at hwf
      simp [hwf]
    simp only [parseSegment, hc, if_neg hv]
    exact ⟨_, rfl⟩
  | none =>
    simp only [parseSegment, hc, if_neg (by simp [hval] :
      ¬is_valid seg = true)]
    exact ⟨_, rfl⟩

theorem parseSegment_error_shape {seg : String} {e : Err}
    (h : parseSegment seg = .error e) :
    ∃ m, e = .malformedRouteSegment m := by
  cases hc : routeArgCapture seg with
  | some inner =>
    simp only [parseSegment, hc] at h
    by_cases hv : is_valid inner
    · rw [if_pos hv] at h; cases h
    · rw [if_neg hv] at h; cases h; exact ⟨inner, rfl⟩
  | none =>
    simp only [parseSegment, hc] at h
    by_cases hv : is_valid seg
    · rw [if_pos hv] at h; cases h
    · rw [if_neg hv] at h; cases h; exact ⟨seg, rfl⟩

theorem parseSegment_renders_expected {seg : String} {rs : RouteSegment}
    (h : parseSegment seg = .ok rs) :
    renderSegment rs = expectedSegment seg := by
  cases hc : routeArgCapture seg with
  | some inner =>
    simp only [parseSegment, hc] at h
    by_cases hv : is_valid inner
    · rw [if_pos hv] at h
      cases h
      simp [renderSegment, expectedSegment, hc]
    · rw [if_neg hv] at h; cases h
  | none =>
    simp only [parseSegment, hc] at h
    by_cases hv : is_valid seg
    · rw [if_pos hv] at h
      cases h
      simp [renderSegment, expectedSegment, hc]
    · rw [if_neg hv] at h; cases h

theorem forall₂_render_map {l : List String} {segs : List RouteSegment}
    (h : List.Forall₂ (fun x y => parseSegment x = .ok y) l segs) :
    segs.map renderSegment = l.map expectedSegment := by
  induction h with
  | nil => rfl
  | cons hseg _ ih =>
    simp only [List.map_cons]
    rw [parseSegment_renders_expected hseg, ih]

theorem from_str_ok_collect {route : String} {r : Route}
    (h : Route.from_str route = .ok r) :
    collectResults parseSegment (splitSlash route) = .ok r.segments := by
  cases hc : collectResults parseSegment (splitSlash route) with
  | error e => simp [Route.from_str, hc] at h
  | ok segs =>
    simp only [Route.from_str, hc, Except.ok.injEq] at h
    rw [← h]

/-! ## Claim theorems -/

/-- C3: resolving the schema `{"type": "integer"}` with `required = true`
yields `Int64` (`i64`), with `required = false` yields `Option(Int64)`; and in
general every successful resolution with `required = false` produces an
`option`-wrapped type. -/
theorem resolve_integer_required_and_option_wrap :
    NativeType.from_json_schema intSchema true = .ok .i64 ∧
    NativeType.from_json_schema intSchema false = .ok (.option .i64) ∧
    ∀ (s : Schema) (t : NativeType),
      NativeType.from_json_schema s false = .ok t →
      ∃ u, t = .option u := by
  refine ⟨rfl, rfl, ?_⟩
  intro s t h
  cases s with
  | mk r ts its =>
    cases r with
    | some ref_ =>
      simp only [NativeType.from_json_schema] at h
      exact wrapRequired_false_ok h
    | none =>
      simp only [NativeType.from_json_schema] at h
      exact wrapRequired_false_ok h

/-- C3 witness: the general `option`-wrapping conjunct applied to the
concrete integer schema. -/
theorem resolve_integer_required_and_option_wrap_witness :
    ∃ u, NativeType.option .i64 = .option u :=
  resolve_integer_required_and_option_wrap.2.2 intSchema (.option .i64) rfl

/-- C7: a schema node carrying a reference string resolves (with
`required = true`) to `named name` where `name` is the final path segment of
the reference (the part after the last `/`); when the reference contains no
`/` at all, resolution fails with `invalidReference` for every `required`. -/
theorem resolve_reference_final_segment (s : Schema) (ref_ : String)
    (h : s.ref = some ref_) :
    (∀ pre name : String, ref_ = pre ++ "/" ++ name → '/' ∉ name.data →
      NativeType.from_json_schema s true = .ok (.named name)) ∧
    ('/' ∉ ref_.data → ∀ required,
      NativeType.from_json_schema s required =
        .error (.invalidReference ref_)) := by
  cases s with
  | mk r ts its =>
    cases r with
    | none => simp [Schema.ref] at h
    | some rr =>
      simp only [Schema.ref, Option.some.injEq] at h
      subst h
      constructor
      · intro pre name hsplit hname
        subst hsplit
        simp only [NativeType.from_json_schema,
          afterLastSlash_append pre name hname]
        rfl
      · intro hnone required
        simp only [NativeType.from_json_schema,
          afterLastSlash_of_no_slash hnone]
        cases required <;> rfl

/-- C7 witness: the reference `"#/components/schemas/Pet"` resolves to
`named "Pet"`, and the separator-free reference `"Pet"` fails. -/
theorem resolve_reference_final_segment_witness :
    NativeType.from_json_schema (.mk (some "#/components/schemas/Pet") [] [])
      true = .ok (.named "Pet") ∧
    NativeType.from_json_schema (.mk (some "Pet") [] []) true =
      .error (.invalidReference "Pet") :=
  ⟨(resolve_reference_final_segment (.mk (some "#/components/schemas/Pet") [] [])
      "#/components/schemas/Pet" rfl).1 "#/components/schemas" "Pet" rfl
      (by decide),
   (resolve_reference_final_segment (.mk (some "Pet") [] []) "Pet" rfl).2
      (by decide) true⟩

/-- C10: every `Response` built by `build_from_response_obj` keeps the given
status code and has `return_type` and `content_type` both absent (no declared
content) or both present; when present, the content type is the first entry of
the content map and the return type resolves that entry's media schema with
`required = true`. -/
theorem response_body_invariant (status_code : String) (obj : ResponseObj)
    (resp : Response)
    (h : Response.build_from_response_obj status_code obj = .ok resp) :
    resp.status_code = status_code ∧
    ((resp.return_type = none ∧ resp.content_type = none ∧
        obj.content = none) ∨
      (∃ content_map content_type media s t,
        obj.content = some content_map ∧
        content_map.head? = some (content_type, media) ∧
        media.schema = some s ∧
        NativeType.from_json_schema s true = .ok t ∧
        resp.return_type = some t ∧
        resp.content_type = some content_type)) := by
  cases obj with
  | mk content =>
    cases content with
    | none =>
      simp only [Response.build_from_response_obj, Except.ok.injEq] at h
      subst h
      exact ⟨rfl, Or.inl ⟨rfl, rfl, rfl⟩⟩
    | some content_map =>
      cases hhead : content_map.head? with
      | none =>
        simp [Response.build_from_response_obj, hhead] at h
      | some entry =>
        obtain ⟨content_type, media⟩ := entry
        cases hschema : media.schema with
        | none =>
          simp [Response.build_from_response_obj, hhead, hschema] at h
        | some s =>
          cases hres : NativeType.from_json_schema s true with
          | error e =>
            simp [Response.build_from_response_obj, hhead, hschema, hres] at h
          | ok t =>
            simp only [Response.build_from_response_obj, hhead, hschema, hres,
              Except.ok.injEq] at h
            subst h
            exact ⟨rfl, Or.inr ⟨content_map, content_type, media, s, t, rfl,
              hhead, hschema, hres, rfl, rfl⟩⟩

/-- C10 witness: the invariant applied to a concrete response object with one
`application/json` integer-schema entry. -/
theorem response_body_invariant_witness :
    (Response.new "200" (some .i64) (some "application/json")).status_code =
      "200" ∧
    (((Response.new "200" (some .i64)
        (some "application/json")).return_type = none ∧
      (Response.new "200" (some .i64)
        (some "application/json")).content_type = none ∧
      (ResponseObj.mk (some [("application/json", ⟨some intSchema⟩)])).content
        = none) ∨
      (∃ content_map content_type media s t,
        (ResponseObj.mk
          (some [("application/json", ⟨some intSchema⟩)])).content =
            some content_map ∧
        content_map.head? = some (content_type, media) ∧
        media.schema = some s ∧
        NativeType.from_json_schema s true = .ok t ∧
        (Response.new "200" (some .i64)
          (some "application/json")).return_type = some t ∧
        (Response.new "200" (some .i64)
          (some "application/json")).content_type = some content_type)) :=
  response_body_invariant "200"
    (ResponseObj.mk (some [("application/json", ⟨some intSchema⟩)]))
    (Response.new "200" (some .i64) (some "application/json")) rfl

/-- C8: `result_type` takes the first response whose status code starts with
`"2"`: its rendered return type when present, `"()"` when the response has no
body; and when no 2xx response exists it still produces `"()"`, additionally
signalling the diagnostic warning (second component `true`) instead of
failing. -/
theorem result_type_first_2xx (e : Entrypoint) (anon_count : Nat) :
    (e.responses.find? (fun r => strStartsWith r.status_code "2") = none →
      e.result_type anon_count = some ("()", true)) ∧
    (∀ resp, e.responses.find? (fun r => strStartsWith r.status_code "2") =
        some resp →
      (resp.return_type = none →
        e.result_type anon_count = some ("()", false)) ∧
      (∀ t, resp.return_type = some t →
        e.result_type anon_count =
          (t.render anon_count e.operation_id).map fun p => (p.1, false))) := by
  constructor
  · intro h
    simp only [Entrypoint.result_type, head?_filter, h]
  · intro resp h
    constructor
    · intro hnone
      simp only [Entrypoint.result_type, head?_filter, h, hnone]
    · intro t ht
      simp only [Entrypoint.result_type, head?_filter, h, ht]
      cases t.render anon_count e.operation_id with
      | none => rfl
      | some p => rfl

/-- C8 witness: applied to an entrypoint whose only responses are a 404 and a
201 with an `i64` body, the result type is `"i64"` with no warning. -/
theorem result_type_first_2xx_witness :
    Entrypoint.result_type
      ⟨⟨[]⟩, .get, [], [Response.new "404" none none,
        Response.new "201" (some .i64) (some "application/json")],
        OperationId.new "x", none, none⟩ 1 =
      ((NativeType.i64.render 1 (OperationId.new "x")).map fun p =>
        (p.1, false)) :=
  ((result_type_first_2xx
      ⟨⟨[]⟩, .get, [], [Response.new "404" none none,
        Response.new "201" (some .i64) (some "application/json")],
        OperationId.new "x", none, none⟩ 1).2
    (Response.new "201" (some .i64) (some "application/json")) rfl).2
    .i64 rfl

/-- C5: a route containing a segment that has a brace character yet is not a
full well-formed `{name}` placeholder fails to parse with
`malformedRouteSegment`; conversely, every segment of a successfully parsed
route is entirely literal (brace-free) or a full `{name}` placeholder. -/
theorem route_parse_rejects_brace_segments (route : String) :
    ((∃ seg ∈ splitSlash route,
        is_valid seg = false ∧ wellFormedPlaceholder seg = false) →
      ∃ m, Route.from_str route = .error (.malformedRouteSegment m)) ∧
    (∀ r, Route.from_str route = .ok r →
      ∀ seg ∈ splitSlash route,
        is_valid seg = true ∨ wellFormedPlaceholder seg = true) := by
  constructor
  · rintro ⟨seg, hmem, hval, hwf⟩
    obtain ⟨e₀, he₀⟩ := parseSegment_error_of_bad hval hwf
    cases hc : collectResults parseSegment (splitSlash route) with
    | ok segs =>
      obtain ⟨y, hy⟩ := forall₂_mem_left (collectResults_ok_iff.mp hc) hmem
      rw [he₀] at hy
      cases hy
    | error e =>
      obtain ⟨x, _, hx⟩ := collectResults_error_mem hc
      obtain ⟨m, hm⟩ := parseSegment_error_shape hx
      refine ⟨m, ?_⟩
      simp [Route.from_str, hc, hm]
  · intro r hr seg hmem
    obtain ⟨y, hy⟩ :=
      forall₂_mem_left (collectResults_ok_iff.mp (from_str_ok_collect hr)) hmem
    exact parseSegment_ok_valid hy

/-- C5 witness: the partial-brace segment `x{bogus}` makes parsing fail, and
the parsed route `"/pets/{petId}"` has only literal or placeholder segments. -/
theorem route_parse_rejects_brace_segments_witness :
    (∃ m, Route.from_str "/pets/x{bogus}" =
      .error (.malformedRouteSegment m)) ∧
    (∀ seg ∈ splitSlash "/pets/{petId}",
      is_valid seg = true ∨ wellFormedPlaceholder seg = true) :=
  ⟨(route_parse_rejects_brace_segments "/pets/x{bogus}").1
      ⟨"x{bogus}", by decide, by decide, by decide⟩,
   (route_parse_rejects_brace_segments "/pets/{petId}").2
      ⟨[.path "", .path "pets", .routeArg "petId"]⟩ rfl⟩

/-- C6: parsing a route and rendering it back reproduces the original segment
structure: the rendered route is the original segments joined by `/`, with
every literal unchanged and every `{name}` placeholder replaced by exactly one
parameter segment in the target placeholder syntax; segment counts agree and
the correspondence is positional. -/
theorem route_parse_render_round_trip (route : String) (r : Route)
    (h : Route.from_str route = .ok r) :
    r.segments.length = (splitSlash route).length ∧
    List.Forall₂ (fun seg rs =>
        (∀ p, rs = RouteSegment.path p → p = seg ∧
          routeArgCapture seg = none) ∧
        (∀ a, rs = RouteSegment.routeArg a → routeArgCapture seg = some a))
      (splitSlash route) r.segments ∧
    Route.render r = joinSep "/" ((splitSlash route).map expectedSegment) := by
  have hF := collectResults_ok_iff.mp (from_str_ok_collect h)
  refine ⟨(List.Forall₂.length_eq hF).symm, ?_, ?_⟩
  · refine List.Forall₂.imp ?_ hF
    intro seg rs hok
    cases hc : routeArgCapture seg with
    | some inner =>
      simp only [parseSegment, hc] at hok
      by_cases hv : is_valid inner
      · rw [if_pos hv] at hok
        cases hok
        constructor
        · intro p hp
          cases hp
        · intro a ha
          injection ha with ha'
          rw [← ha']
      · rw [if_neg hv] at hok; cases hok
    | none =>
      simp only [parseSegment, hc] at hok
      by_cases hv : is_valid seg
      · rw [if_pos hv] at hok
        cases hok
        constructor
        · intro p hp
          injection hp with hp'
          exact ⟨hp'.symm, rfl⟩
        · intro a ha
          cases ha
      · rw [if_neg hv] at hok; cases hok
  · unfold Route.render
    congr 1
    exact forall₂_render_map hF

/-- C6 witness: the round trip applied to `"/pets/{petId}"`; the placeholder
comes back as the single parameter segment `<pet_id>`. -/
theorem route_parse_render_round_trip_witness :
    Route.render ⟨[.path "", .path "pets", .routeArg "petId"]⟩ =
      joinSep "/" ((splitSlash "/pets/{petId}").map expectedSegment) :=
  (route_parse_render_round_trip "/pets/{petId}"
    ⟨[.path "", .path "pets", .routeArg "petId"]⟩ rfl).2.2

/-- C1 counterexample: for the route `"/{a}/{a}"` and the single path argument
`"a"`, the set of route parameter names equals the set of path-argument names
(both are `{"a"}`), yet `Entrypoint::new` fails with `pathArgMismatch` — the
code compares sorted lists (multisets), not sets. -/
theorem route_arg_set_equality_insufficient :
    Route.from_str "/{a}/{a}" =
      .ok ⟨[.path "", .routeArg "a", .routeArg "a"]⟩ ∧
    (Route.mk [.path "", .routeArg "a", .routeArg "a"]).route_args =
      ["a", "a"] ∧
    pathArgNames [Arg.new "a" .i64 .path] = ["a"] ∧
    ((Route.mk [.path "", .routeArg "a", .routeArg "a"]).route_args).dedup =
      (pathArgNames [Arg.new "a" .i64 .path]).dedup ∧
    Entrypoint.new ⟨[.path "", .routeArg "a", .routeArg "a"]⟩ .get
      [Arg.new "a" .i64 .path] [] (OperationId.new "op") none none =
      .error (.pathArgMismatch ["a", "a"] ["a"]) :=
  ⟨rfl, rfl, rfl, rfl, rfl⟩

/-- C1 (amended): constructing an `Entrypoint` succeeds exactly when the
snake-cased route parameter names and the names of path-located arguments
agree as multisets (equal up to reordering, counting duplicates); otherwise it
fails with `pathArgMismatch` reporting both sorted name lists. Equality of the
two name sets alone is not sufficient when a name repeats. -/
theorem entrypoint_new_ok_iff_route_args_perm (route : Route)
    (method : Method) (args : List Arg) (responses : List Response)
    (operation_id : OperationId) (summary description : Option String) :
    ((Entrypoint.new route method args responses operation_id summary
        description).isOk = true ↔
      route.route_args.Perm (pathArgNames args)) ∧
    (¬ route.route_args.Perm (pathArgNames args) →
      Entrypoint.new route method args responses operation_id summary
          description =
        .error (.pathArgMismatch (sortStrings route.route_args)
          (sortStrings (pathArgNames args)))) := by
  by_cases heq : sortStrings route.route_args = sortStrings (pathArgNames args)
  · have hperm := sortStrings_eq_iff_perm.mp heq
    constructor
    · constructor
      · intro _; exact hperm
      · intro _
        simp [Entrypoint.new, validate_route_args, heq, Except.isOk,
          Except.toBool]
    · intro hn
      exact absurd hperm hn
  · have hnperm : ¬ route.route_args.Perm (pathArgNames args) :=
      fun hp => heq (sortStrings_eq_iff_perm.mpr hp)
    constructor
    · constructor
      · intro hok
        exfalso
        simp [Entrypoint.new, validate_route_args, heq, Except.isOk,
          Except.toBool] at hok
      · intro hp
        exact absurd hp hnperm
    · intro _
      simp [Entrypoint.new, validate_route_args, heq]

/-- C1 witness: with path arguments declared in the opposite order of the
route placeholders, the multisets agree and construction succeeds. -/
theorem entrypoint_new_ok_iff_route_args_perm_witness :
    (Entrypoint.new ⟨[.path "", .routeArg "b", .routeArg "a"]⟩ .get
      [Arg.new "a" .i64 .path, Arg.new "b" .i64 .path] []
      (OperationId.new "op") none none).isOk = true :=
  (entrypoint_new_ok_iff_route_args_perm
    ⟨[.path "", .routeArg "b", .routeArg "a"]⟩ .get
    [Arg.new "a" .i64 .path, Arg.new "b" .i64 .path] []
    (OperationId.new "op") none none).1.mpr (by decide)

theorem entrypoint_new_ok_elim {route : Route} {method : Method}
    {args : List Arg} {responses : List Response}
    {operation_id : OperationId} {summary description : Option String}
    {ep : Entrypoint}
    (h : Entrypoint.new route method args responses operation_id summary
      description = .ok ep) :
    ep = ⟨route, method, args, responses, operation_id, summary,
      description⟩ := by
  cases hv : validate_route_args route args with
  | error e => simp [Entrypoint.new, hv] at h
  | ok u =>
    simp only [Entrypoint.new, hv, Except.ok.injEq] at h
    exact h.symm

/-- C2: in `Entrypoint::build`, a failure resolving a single response is not
fatal — the failing response is omitted (and its error merely reported) while
the entrypoint is still produced from the remaining valid responses, and
overall success never depends on the responses; by contrast, the first
parameter-resolution failure is propagated and fails the whole build. -/
theorem build_responses_nonfatal_args_fatal :
    (∀ (route : String) (method : Method) (operation : Operation)
        (components : Components) (ep : Entrypoint) (reported : List Err),
      Entrypoint.build route method operation components =
          .ok (ep, reported) →
        ep.responses = (build_responses operation components).filterMap
          (fun res => match res with
            | .ok resp => some resp
            | .error _ => none) ∧
        reported = (build_responses operation components).filterMap
          (fun res => match res with
            | .ok _ => none
            | .error e => some e)) ∧
    (∀ (route : String) (method : Method) (operation : Operation)
        (components : Components),
      (Entrypoint.build route method operation components).isOk = true ↔
        ∃ args operation_id r,
          build_args operation components = .ok args ∧
          operation.operation_id = some operation_id ∧
          Route.from_str route = .ok r ∧
          validate_route_args r args = .ok ()) ∧
    (∀ (route : String) (method : Method) (operation : Operation)
        (components : Components) (e : Err),
      build_args operation components = .error e →
      Entrypoint.build route method operation components = .error e) ∧
    (∀ (operation : Operation) (components : Components) ps pre mp post e,
      operation.parameters = some ps → ps = pre ++ mp :: post →
      (∀ q ∈ pre, (buildOneArg components q).isOk = true) →
      buildOneArg components mp = .error e →
      build_args operation components = .error e) := by
  refine ⟨?_, ?_, ?_, ?_⟩
  · intro route method operation components ep reported h
    cases hargs : build_args operation components with
    | error e => simp [Entrypoint.build, hargs] at h
    | ok args =>
      cases hoid : operation.operation_id with
      | none => simp [Entrypoint.build, hargs, hoid] at h
      | some operation_id =>
        cases hroute : Route.from_str route with
        | error e => simp [Entrypoint.build, hargs, hoid, hroute] at h
        | ok r =>
          cases hnew : Entrypoint.new r method args
              ((build_responses operation components).filterMap fun res =>
                match res with
                | .ok resp => some resp
                | .error _ => none)
              (OperationId.new operation_id) operation.summary
              operation.description with
          | error e =>
            simp [Entrypoint.build, hargs, hoid, hroute, hnew] at h
          | ok ep' =>
            simp only [Entrypoint.build, hargs, hoid, hroute, hnew,
              Except.ok.injEq, Prod.mk.injEq] at h
            obtain ⟨hep, hrep⟩ := h
            subst hep
            subst hrep
            rw [entrypoint_new_ok_elim hnew]
            exact ⟨rfl, rfl⟩
  · intro route method operation components
    constructor
    · intro hok
      cases hargs : build_args operation components with
      | error e => simp [Entrypoint.build, hargs, Except.isOk,
          Except.toBool] at hok
      | ok args =>
        cases hoid : operation.operation_id with
        | none => simp [Entrypoint.build, hargs, hoid, Except.isOk,
            Except.toBool] at hok
        | some operation_id =>
          cases hroute : Route.from_str route with
          | error e => simp [Entrypoint.build, hargs, hoid, hroute,
              Except.isOk, Except.toBool] at hok
          | ok r =>
            cases hval : validate_route_args r args with
            | error e =>
              simp [Entrypoint.build, hargs, hoid, hroute, Entrypoint.new,
                hval, Except.isOk, Except.toBool] at hok
            | ok u =>
              cases u
              exact ⟨args, operation_id, r, rfl, rfl, rfl, hval⟩
    · rintro ⟨args, operation_id, r, hargs, hoid, hroute, hval⟩
      simp [Entrypoint.build, hargs, hoid, hroute, Entrypoint.new, hval,
        Except.isOk, Except.toBool]
  · intro route method operation components e hargs
    simp [Entrypoint.build, hargs]
  · intro operation components ps pre mp post e hps hsplit hpre hmp
    simp only [build_args, hps, hsplit]
    exact collectResults_first_error pre mp post e hpre hmp

/-- C2 witness: for a concrete operation with one valid response and one
response whose content map is empty, the build succeeds, omitting exactly the
failing response and reporting its error. -/
theorem build_responses_nonfatal_args_fatal_witness :
    epC2.responses = (build_responses opC2 emptyComponents).filterMap
      (fun res => match res with
        | .ok resp => some resp
        | .error _ => none) ∧
    [Err.emptyContentMap] = (build_responses opC2 emptyComponents).filterMap
      (fun res => match res with
        | .ok _ => none
        | .error e => some e) :=
  build_responses_nonfatal_args_fatal.1 "/x" .get opC2 emptyComponents epC2
    [Err.emptyContentMap] rfl

/-- C4: rendering an argument list threads the anonymous-type counter left to
right starting at 1, so two anonymous (inline object) arguments under
operation id `myOperationId` render as `MyOperationIdAnonArg1` and
`MyOperationIdAnonArg2` — distinct names, produced deterministically by the
pure fold inside `build_template_args`. -/
theorem render_anon_args_threads_counter (s1 s2 : Schema) (n1 n2 : String)
    (l1 l2 : Location) :
    renderArgsFold (OperationId.new "myOperationId")
        [Arg.new n1 (.anonymous s1) l1, Arg.new n2 (.anonymous s2) l2] [] 1 =
      some ([(to_snake_case n1, "MyOperationIdAnonArg1"),
             (to_snake_case n2, "MyOperationIdAnonArg2")], 3) ∧
    ("MyOperationIdAnonArg1" : String) ≠ "MyOperationIdAnonArg2" ∧
    (∀ e : Entrypoint, e.operation_id = OperationId.new "myOperationId" →
      e.args = [Arg.new n1 (.anonymous s1) l1, Arg.new n2 (.anonymous s2) l2] →
      e.responses = [] →
      ∃ ta, e.build_template_args = some (ta, true) ∧
        ta.args = [(to_snake_case n1, "MyOperationIdAnonArg1"),
                   (to_snake_case n2, "MyOperationIdAnonArg2")]) := by
  have hfold : renderArgsFold (OperationId.new "myOperationId")
      [Arg.new n1 (.anonymous s1) l1, Arg.new n2 (.anonymous s2) l2] [] 1 =
      some ([(to_snake_case n1, "MyOperationIdAnonArg1"),
             (to_snake_case n2, "MyOperationIdAnonArg2")], 3) := rfl
  refine ⟨hfold, by decide, ?_⟩
  intro e h1 h2 h3
  have hrt : e.result_type 3 = some ("()", true) := by
    simp [Entrypoint.result_type, h3]
  simp only [Entrypoint.build_template_args, h1, h2, hfold, hrt]
  exact ⟨_, rfl, rfl⟩

/-- C4 witness: the concrete entrypoint `epC4` (operation id `myOperationId`,
two anonymous arguments) renders its argument types as `MyOperationIdAnonArg1`
and `MyOperationIdAnonArg2`. -/
theorem render_anon_args_threads_counter_witness :
    ∃ ta, epC4.build_template_args = some (ta, true) ∧
      ta.args = [(to_snake_case "argOne", "MyOperationIdAnonArg1"),
                 (to_snake_case "argTwo", "MyOperationIdAnonArg2")] :=
  (render_anon_args_threads_counter anonSchema anonSchema "argOne" "argTwo"
    .query .query).2.2 epC4 rfl rfl rfl

theorem wrapRequired_ok_good {required : Bool} {core : Except Err NativeType}
    {t : NativeType} (hcore : ∀ u, core = .ok u → goodArrays u = true)
    (h : wrapRequired required core = .ok t) : goodArrays t = true := by
  cases core with
  | error e => simp [wrapRequired] at h
  | ok out =>
    have hout := hcore out rfl
    cases required with
    | true =>
      have ht : out = t := Except.ok.inj h
      rw [← ht]
      exact hout
    | false =>
      have ht : NativeType.option out = t := Except.ok.inj h
      rw [← ht]
      simpa [goodArrays] using hout

theorem resolver_good_aux : ∀ N : Nat,
    (∀ s : Schema, sizeOf s ≤ N → ∀ (required : Bool) (t : NativeType),
      NativeType.from_json_schema s required = .ok t →
      goodArrays t = true) ∧
    (∀ ss : List Schema, sizeOf ss ≤ N → ∀ (required : Bool)
        (ts : List NativeType),
      NativeType.from_json_schema_list ss required = .ok ts →
      goodArraysList ts = true ∧ ts.length = ss.length) := by
  intro N
  induction N using Nat.strong_induction_on with
  | _ N ih =>
    constructor
    · intro s hsize required t h
      cases s with
      | mk r ts its =>
        cases r with
        | some ref_ =>
          simp only [NativeType.from_json_schema] at h
          refine wrapRequired_ok_good ?_ h
          intro u hu
          cases hals : afterLastSlash ref_ with
          | none => rw [hals] at hu; cases hu
          | some refname => rw [hals] at hu; cases hu; rfl
        | none =>
          simp only [NativeType.from_json_schema] at h
          refine wrapRequired_ok_good ?_ h
          intro u hu
          match hts : ts with
          | [] => cases hu; rfl
          | [.object] => cases hu; rfl
          | [.boolean] => cases hu; rfl
          | [.integer] => cases hu; rfl
          | [.null] => cases hu
          | [.number] => cases hu; rfl
          | [.string] => cases hu; rfl
          | [.array] =>
            by_cases hlen : its.length = 0
            · rw [if_pos hlen] at hu; cases hu
            · rw [if_neg hlen] at hu
              cases hrec : NativeType.from_json_schema_list its required with
              | error e => rw [hrec] at hu; cases hu
              | ok natives =>
                rw [hrec] at hu
                cases hu
                have hits : sizeOf its < N := by
                  have : sizeOf its < sizeOf (Schema.mk none [SimpleTypes.array] its) := by
                    simp
                  omega
                have hrec2 := (ih (sizeOf its) hits).2 its le_rfl required
                  natives hrec
                have hne : ¬natives.isEmpty = true := by
                  rw [List.isEmpty_iff]
                  intro hnil
                  rw [hnil] at hrec2
                  exact hlen (by simpa using hrec2.2.symm)
                simp only [goodArrays]
                rw [hrec2.1]
                simp [hne]
          | t1 :: t2 :: rest => cases hu
    · intro ss hsize required ts h
      cases ss with
      | nil =>
        simp only [NativeType.from_json_schema_list] at h
        cases h
        exact ⟨rfl, rfl⟩
      | cons s rest =>
        simp only [NativeType.from_json_schema_list] at h
        cases hs : NativeType.from_json_schema s required with
        | error e => rw [hs] at h; cases h
        | ok t0 =>
          rw [hs] at h
          cases hrest : NativeType.from_json_schema_list rest required with
          | error e => rw [hrest] at h; cases h
          | ok ts0 =>
            rw [hrest] at h
            cases h
            have hs_lt : sizeOf s < N := by
              have : sizeOf s < sizeOf (s :: rest) := by
                simp
                omega
              omega
            have hrest_lt : sizeOf rest < N := by
              have : sizeOf rest < sizeOf (s :: rest) := by simp
              omega
            have hg := (ih (sizeOf s) hs_lt).1 s le_rfl required t0 hs
            have hr := (ih (sizeOf rest) hrest_lt).2 rest le_rfl required
              ts0 hrest
            refine ⟨?_, by simp [hr.2]⟩
            simp only [goodArraysList]
            rw [hg, hr.1]
            rfl

theorem render_total_of_good : ∀ (N : Nat) (t : NativeType), sizeOf t ≤ N →
    goodArrays t = true → ∀ (anon_count : Nat) (operation_id : OperationId),
    (NativeType.render t anon_count operation_id).isSome = true := by
  intro N
  induction N using Nat.strong_induction_on with
  | _ N ih =>
    intro t hsize hg anon_count operation_id
    cases t with
    | i32 => rfl
    | i64 => rfl
    | f32 => rfl
    | f64 => rfl
    | bool => rfl
    | string => rfl
    | named s => rfl
    | anonymous s => rfl
    | array natives =>
      cases natives with
      | nil => simp [goodArrays, List.isEmpty] at hg
      | cons t0 rest =>
        have hg0 : goodArrays t0 = true := by
          simp only [goodArrays, goodArraysList] at hg
          cases hgood0 : goodArrays t0 with
          | true => rfl
          | false => rw [hgood0] at hg; simp at hg
        have h0_lt : sizeOf t0 < N := by
          have : sizeOf t0 < sizeOf (NativeType.array (t0 :: rest)) := by
            simp
            omega
          omega
        have := ih (sizeOf t0) h0_lt t0 le_rfl hg0 anon_count operation_id
        cases hr : NativeType.render t0 anon_count operation_id with
        | none => rw [hr] at this; cases this
        | some p =>
          simp only [NativeType.render, hr]
          rfl
    | option t0 =>
      have hg0 : goodArrays t0 = true := by simpa [goodArrays] using hg
      have h0_lt : sizeOf t0 < N := by
        have : sizeOf t0 < sizeOf (NativeType.option t0) := by simp
        omega
      have := ih (sizeOf t0) h0_lt t0 le_rfl hg0 anon_count operation_id
      cases hr : NativeType.render t0 anon_count operation_id with
      | none => rw [hr] at this; cases this
      | some p =>
        simp only [NativeType.render, hr]
        rfl

/-- C9: `NativeType::render` inspects only the head of an `Array` through an
unchecked unwrap, so rendering an empty `Array` panics (`none`); but every
type produced by `from_json_schema` satisfies the every-array-nonempty
invariant `goodArrays` (resolution rejects empty `items` lists), and rendering
any `goodArrays` type never panics. -/
theorem render_array_safety :
    (∀ (anon_count : Nat) (operation_id : OperationId),
      NativeType.render (.array []) anon_count operation_id = none) ∧
    (∀ (s : Schema) (required : Bool) (t : NativeType),
      NativeType.from_json_schema s required = .ok t →
      goodArrays t = true) ∧
    (∀ t : NativeType, goodArrays t = true →
      ∀ (anon_count : Nat) (operation_id : OperationId),
        (NativeType.render t anon_count operation_id).isSome = true) :=
  ⟨fun _ _ => rfl,
   fun s required t h => (resolver_good_aux (sizeOf s)).1 s le_rfl required t h,
   fun t hg anon_count operation_id =>
     render_total_of_good (sizeOf t) t le_rfl hg anon_count operation_id⟩

/-- C9 witness: the resolver output `Array [Named "Pet"]` satisfies the
invariant and renders successfully. -/
theorem render_array_safety_witness :
    goodArrays (NativeType.array [.named "Pet"]) = true ∧
    ((NativeType.array [.named "Pet"]).render 1
      (OperationId.new "op")).isSome = true :=
  ⟨render_array_safety.2.1 (.mk none [.array] [.mk (some "#/c/Pet") [] []])
      true (.array [.named "Pet"]) rfl,
   render_array_safety.2.2 (.array [.named "Pet"]) rfl 1
      (OperationId.new "op")⟩

end Thruster

